import Mathlib

/-!
Shallow embedding of the remote resolution and activation subsystem of the
visibility-core-frontend repository, together with theorems settling the
frozen claims about it.

The embedding covers:
* the runtime contract validator `isRemoteModule` and the loaders
  `resolveRemoteUrl`, `loadRemote`, `loadRemoteWithRetry`
  (apps/visibility/src/app/remotes/loadRemotes.ts);
* the stylesheet utilities `loadCss` and `deriveCssUrl`
  (packages/ui, source listed in packages/ui/README.md);
* the host entry points `mount`/`unmount` of the visibility app
  (apps/visibility/src/visibility.tsx, WeakMap-registry revision) and of
  the status remote (apps/status/src/status.tsx);
* the `RemoteSlot` effect run with its cancellation checks
  (apps/visibility/src/app/remotes/RemoteSlot.tsx).

JavaScript dynamic values are modelled by the inductive type `JSValue`;
machine state touched by the code (the document's stylesheet links, the
root registries, the render calls) is passed explicitly.
-/

namespace Visibility

/-- Model of a JavaScript runtime value, rich enough for the dynamic checks
performed by the repository: `typeof`, `null` tests, property membership and
property access. Functions are identified by an opaque id. -/
inductive JSValue where
  | null : JSValue
  | undefined : JSValue
  | bool (b : Bool) : JSValue
  | num (n : Int) : JSValue
  | str (s : String) : JSValue
  | fn (id : Nat) : JSValue
  | arr (elems : List JSValue) : JSValue
  | obj (props : List (String × JSValue)) : JSValue

/-- JavaScript `typeof` operator on the modelled values. Note that
`typeof null` is `"object"` and that arrays are objects. -/
def jsTypeof : JSValue → String
  | .null => "object"
  | .undefined => "undefined"
  | .bool _ => "boolean"
  | .num _ => "number"
  | .str _ => "string"
  | .fn _ => "function"
  | .arr _ => "object"
  | .obj _ => "object"

/-- Strict-equality test against `null`. -/
def jsIsNull : JSValue → Bool
  | .null => true
  | _ => false

/-- JavaScript `k in v` property-membership test (own properties of plain
objects in this model). -/
def hasProp (v : JSValue) (k : String) : Bool :=
  match v with
  | .obj props => (props.lookup k).isSome
  | _ => false

/-- JavaScript property access `v.k`; absent properties read as `undefined`. -/
def getProp (v : JSValue) (k : String) : JSValue :=
  match v with
  | .obj props => (props.lookup k).getD .undefined
  | _ => .undefined

/-- Embedding of `isRemoteModule` from
apps/visibility/src/app/remotes/loadRemotes.ts:

```ts
typeof mod === 'object' &&
mod !== null &&
'mount' in mod &&
typeof (mod as any).mount === 'function' &&
(!('unmount' in mod) || typeof (mod as any).unmount === 'function')
```
-/
def isRemoteModule (mod : JSValue) : Bool :=
  jsTypeof mod == "object" &&
  !jsIsNull mod &&
  hasProp mod "mount" &&
  jsTypeof (getProp mod "mount") == "function" &&
  (!hasProp mod "unmount" || jsTypeof (getProp mod "unmount") == "function")

/-- Propositional reading of the Boolean conjunction inside `isRemoteModule`. -/
lemma isRemoteModule_eq_true_iff (v : JSValue) :
    isRemoteModule v = true ↔
      jsTypeof v = "object" ∧ jsIsNull v = false ∧ hasProp v "mount" = true ∧
      jsTypeof (getProp v "mount") = "function" ∧
      (hasProp v "unmount" = true → jsTypeof (getProp v "unmount") = "function") := by
  unfold isRemoteModule
  simp only [Bool.and_eq_true, Bool.or_eq_true, beq_iff_eq, Bool.not_eq_true']
  constructor
  · rintro ⟨⟨⟨⟨h1, h2⟩, h3⟩, h4⟩, h5⟩
    refine ⟨h1, h2, h3, h4, ?_⟩
    intro hu
    rcases h5 with h5 | h5
    · rw [hu] at h5; cases h5
    · exact h5
  · rintro ⟨h1, h2, h3, h4, h5⟩
    refine ⟨⟨⟨⟨h1, h2⟩, h3⟩, h4⟩, ?_⟩
    cases hu : hasProp v "unmount" with
    | false => exact Or.inl rfl
    | true => exact Or.inr (h5 hu)

/-- C2: the artifact contract validator `isRemoteModule` accepts a candidate
iff it is a non-null plain object whose `mount` property is callable and
whose `unmount` property, if present, is also callable; in particular
`{mount: fn}` is valid, while `{}`, `{mount: "not a fn"}` and
`{mount: fn, unmount: "not a fn"}` are all invalid. -/
theorem isRemoteModule_contract :
    (∀ v : JSValue, isRemoteModule v = true ↔
      (∃ props, v = JSValue.obj props) ∧
      jsTypeof (getProp v "mount") = "function" ∧
      (hasProp v "unmount" = true → jsTypeof (getProp v "unmount") = "function")) ∧
    isRemoteModule (.obj [("mount", .fn 0)]) = true ∧
    isRemoteModule (.obj []) = false ∧
    isRemoteModule (.obj [("mount", .str "not a fn")]) = false ∧
    isRemoteModule (.obj [("mount", .fn 0), ("unmount", .str "not a fn")]) = false := by
  refine ⟨?_, by decide, by decide, by decide, by decide⟩
  intro v
  rw [isRemoteModule_eq_true_iff]
  cases v with
  | obj props =>
    cases hm : props.lookup "mount" with
    | none => simp [jsTypeof, jsIsNull, hasProp, getProp, hm]
    | some w => simp [jsTypeof, jsIsNull, hasProp, getProp, hm]
  | null => simp [jsTypeof, jsIsNull]
  | undefined => simp [jsTypeof]
  | bool b => simp [jsTypeof]
  | num n => simp [jsTypeof]
  | str s => simp [jsTypeof]
  | fn id => simp [jsTypeof]
  | arr elems => simp [jsTypeof, hasProp, getProp]

/-- Witness for C2: the characterization evaluated at the concrete candidate
`{mount: fn}`. -/
theorem isRemoteModule_contract_witness :
    isRemoteModule (.obj [("mount", .fn 0)]) = true :=
  isRemoteModule_contract.2.1

/-! ## Retry loader (`loadRemoteWithRetry`, loadRemotes.ts)

One attempt of `loadRemoteWithRetry` races a single `loadRemote` call
against `setTimeout(timeoutMs)`. The behaviour of the underlying fetch on a
given attempt is modelled as an `AttemptBehavior`: it either resolves or
rejects after `t` milliseconds. The race is won by the fetch exactly when it
settles before the timeout fires. -/

/-- Behaviour of the underlying single-attempt fetch (`loadRemote`): it
settles after `t` milliseconds, either with a module or with an error. -/
inductive AttemptBehavior (M : Type) where
  | resolves (t : Nat) (m : M) : AttemptBehavior M
  | rejects (t : Nat) (msg : String) : AttemptBehavior M

/-- `Promise.race([loadPromise, timeoutPromise])` where the timeout rejects
with `Load timeout` after `timeoutMs`. -/
def raceTimeout {M : Type} (timeoutMs : Nat) : AttemptBehavior M → Except String M
  | .resolves t m => if t < timeoutMs then .ok m else .error "Load timeout"
  | .rejects t msg => if t < timeoutMs then .error msg else .error "Load timeout"

/-- Observable outcome of one `loadRemoteWithRetry` call: how many fetch
attempts were executed, which backoff delays were awaited (in order), and
the final result. -/
structure RetryTrace (M : Type) where
  attempts : Nat
  delays : List Nat
  result : Except String M

/-- The final error thrown when every attempt failed:
`Failed to load remote "<name>" after <maxRetries+1> attempts: <lastMsg>`. -/
def retryExhaustedMsg (remoteName : String) (maxRetries : Nat) (lastMsg : String) : String :=
  "Failed to load remote \"" ++ remoteName ++ "\" after " ++ toString (maxRetries + 1) ++
    " attempts: " ++ lastMsg

/-- The `for (let attempt = 0; attempt <= maxRetries; attempt++)` loop of
`loadRemoteWithRetry`, with `fuel` attempts still allowed and `lastMsg`
the message of the last error caught so far. On success the loop returns
immediately; on failure it awaits `retryDelayMs * 2 ^ attempt` unless the
attempt was the last one. -/
def retryLoop {M : Type} (out : Nat → Except String M) (remoteName : String)
    (maxRetries retryDelayMs : Nat) : Nat → Nat → String → RetryTrace M
  | _, 0, lastMsg => ⟨0, [], .error (retryExhaustedMsg remoteName maxRetries lastMsg)⟩
  | attempt, fuel + 1, _ =>
    match out attempt with
    | .ok m => ⟨1, [], .ok m⟩
    | .error e =>
      let rest := retryLoop out remoteName maxRetries retryDelayMs (attempt + 1) fuel e
      ⟨rest.attempts + 1,
       (if attempt < maxRetries then [retryDelayMs * 2 ^ attempt] else []) ++ rest.delays,
       rest.result⟩

/-- Embedding of `loadRemoteWithRetry` from loadRemotes.ts: attempts
`0..=maxRetries`, each racing the fetch behaviour against the timeout. -/
def loadRemoteWithRetry {M : Type} (remoteName : String) (behavior : Nat → AttemptBehavior M)
    (maxRetries retryDelayMs timeoutMs : Nat) : RetryTrace M :=
  retryLoop (fun i => raceTimeout timeoutMs (behavior i)) remoteName maxRetries retryDelayMs
    0 (maxRetries + 1) ""

example :
    loadRemoteWithRetry "status"
        (fun _ => (AttemptBehavior.rejects 5 "boom" : AttemptBehavior Nat)) 2 1000 10000 =
      ⟨3, [1000, 2000], .error "Failed to load remote \"status\" after 3 attempts: boom"⟩ := rfl

example :
    loadRemoteWithRetry "status" (fun _ => AttemptBehavior.resolves 20000 (0 : Nat)) 1 7 10000 =
      ⟨2, [7], .error "Failed to load remote \"status\" after 2 attempts: Load timeout"⟩ := rfl

example :
    (loadRemoteWithRetry "status" (fun i => if i = 1 then .resolves 5 (42 : Nat) else .rejects 5 "x")
      3 10 10000) = ⟨2, [10], .ok 42⟩ := rfl

lemma retryLoop_allfail_attempts {M : Type} (out : Nat → Except String M) (n : String)
    (mr d : Nat) (h : ∀ i, ∃ e, out i = .error e) :
    ∀ fuel attempt lastMsg, (retryLoop out n mr d attempt fuel lastMsg).attempts = fuel := by
  intro fuel
  induction fuel with
  | zero => intro attempt lastMsg; rfl
  | succ f ih =>
    intro attempt lastMsg
    obtain ⟨e, he⟩ := h attempt
    simp [retryLoop, he, ih]

lemma retryLoop_allfail_result {M : Type} (out : Nat → Except String M) (n : String)
    (mr d : Nat) (h : ∀ i, ∃ e, out i = .error e) :
    ∀ fuel attempt lastMsg, ∃ last,
      (retryLoop out n mr d attempt fuel lastMsg).result = .error (retryExhaustedMsg n mr last) := by
  intro fuel
  induction fuel with
  | zero => intro attempt lastMsg; exact ⟨lastMsg, rfl⟩
  | succ f ih =>
    intro attempt lastMsg
    obtain ⟨e, he⟩ := h attempt
    obtain ⟨last, hlast⟩ := ih (attempt + 1) e
    refine ⟨last, ?_⟩
    simp [retryLoop, he, hlast]

lemma retryLoop_err {M : Type} (out : Nat → Except String M) (n : String)
    (mr d attempt fuel : Nat) (lastMsg e : String) (he : out attempt = .error e) :
    retryLoop out n mr d attempt (fuel + 1) lastMsg =
      ⟨(retryLoop out n mr d (attempt + 1) fuel e).attempts + 1,
       (if attempt < mr then [d * 2 ^ attempt] else []) ++
         (retryLoop out n mr d (attempt + 1) fuel e).delays,
       (retryLoop out n mr d (attempt + 1) fuel e).result⟩ := by
  conv_lhs => rw [retryLoop]
  rw [he]

lemma retryLoop_ok {M : Type} (out : Nat → Except String M) (n : String)
    (mr d attempt fuel : Nat) (lastMsg : String) (m : M) (he : out attempt = .ok m) :
    retryLoop out n mr d attempt (fuel + 1) lastMsg = ⟨1, [], .ok m⟩ := by
  conv_lhs => rw [retryLoop]
  rw [he]

lemma delays_shift (d attempt j : Nat) :
    d * 2 ^ attempt :: (List.range j).map (fun k => d * 2 ^ (attempt + 1 + k)) =
      (List.range (j + 1)).map (fun k => d * 2 ^ (attempt + k)) := by
  rw [List.range_succ_eq_map, List.map_cons, List.map_map]
  refine List.cons_eq_cons.mpr ⟨by rw [Nat.add_zero], ?_⟩
  apply List.map_congr_left
  intro a _
  show d * 2 ^ (attempt + 1 + a) = d * 2 ^ (attempt + Nat.succ a)
  rw [show attempt + 1 + a = attempt + Nat.succ a from by omega]

lemma retryLoop_allfail_delays {M : Type} (out : Nat → Except String M) (n : String)
    (mr d : Nat) (h : ∀ i, ∃ e, out i = .error e) :
    ∀ fuel attempt lastMsg, attempt + fuel = mr + 1 →
      (retryLoop out n mr d attempt fuel lastMsg).delays =
        (List.range (fuel - 1)).map (fun k => d * 2 ^ (attempt + k)) := by
  intro fuel
  induction fuel with
  | zero => intro attempt lastMsg _; rfl
  | succ f ih =>
    intro attempt lastMsg hcnt
    obtain ⟨e, he⟩ := h attempt
    cases f with
    | zero =>
      have ha : attempt = mr := by omega
      subst ha
      simp [retryLoop, he]
    | succ g =>
      have hlt : attempt < mr := by omega
      have ihv := ih (attempt + 1) e (by omega)
      simp only [Nat.succ_sub_one] at ihv
      rw [retryLoop_err out n mr d attempt (g + 1) lastMsg e he]
      show (if attempt < mr then [d * 2 ^ attempt] else []) ++
          (retryLoop out n mr d (attempt + 1) (g + 1) e).delays =
        (List.range (g + 1 + 1 - 1)).map (fun k => d * 2 ^ (attempt + k))
      rw [if_pos hlt, ihv, List.singleton_append, Nat.succ_sub_one]
      exact delays_shift d attempt g

lemma retryLoop_success {M : Type} (out : Nat → Except String M) (n : String) (mr d : Nat) :
    ∀ j fuel attempt lastMsg m, j < fuel → attempt + j ≤ mr →
      out (attempt + j) = .ok m →
      (∀ i, i < j → ∃ e, out (attempt + i) = .error e) →
      retryLoop out n mr d attempt fuel lastMsg =
        ⟨j + 1, (List.range j).map (fun k => d * 2 ^ (attempt + k)), .ok m⟩ := by
  intro j
  induction j with
  | zero =>
    intro fuel attempt lastMsg m hfuel _ hok _
    cases fuel with
    | zero => omega
    | succ f =>
      simp only [Nat.add_zero] at hok
      simp [retryLoop, hok]
  | succ k ih =>
    intro fuel attempt lastMsg m hfuel hmr hok herrs
    cases fuel with
    | zero => omega
    | succ f =>
      obtain ⟨e, he⟩ := herrs 0 (Nat.succ_pos k)
      simp only [Nat.add_zero] at he
      have hok' : out (attempt + 1 + k) = .ok m := by
        rw [show attempt + 1 + k = attempt + (k + 1) by omega]; exact hok
      have herrs' : ∀ i, i < k → ∃ e, out (attempt + 1 + i) = .error e := by
        intro i hi
        obtain ⟨e', he'⟩ := herrs (i + 1) (by omega)
        exact ⟨e', by rw [show attempt + 1 + i = attempt + (i + 1) by omega]; exact he'⟩
      have ihv := ih f (attempt + 1) e m (by omega) (by omega) hok' herrs'
      have hlt : attempt < mr := by omega
      rw [retryLoop_err out n mr d attempt f lastMsg e he, ihv, if_pos hlt,
        List.singleton_append, delays_shift d attempt k]

/-- C1: `loadRemoteWithRetry` executes attempts `0..=maxRetries`, racing each
single-attempt fetch against a timeout rejecting after `timeoutMs`; it
returns the module immediately on the first successful attempt, waits
`retryDelayMs * 2 ^ attempt` after each failed attempt that still has
attempts remaining (and does not wait after the last one), and when all
attempts fail it throws an error reporting the total attempt count — in
particular with `maxRetries = 2` and an always-failing fetch, exactly 3
attempts are made and the final rejection reports "after 3 attempts". -/
theorem loadRemoteWithRetry_spec {M : Type} (remoteName : String)
    (behavior : Nat → AttemptBehavior M) (maxRetries retryDelayMs timeoutMs : Nat) :
    ((∀ i, ∃ e, raceTimeout timeoutMs (behavior i) = .error e) →
      (loadRemoteWithRetry remoteName behavior maxRetries retryDelayMs timeoutMs).attempts =
          maxRetries + 1 ∧
        (loadRemoteWithRetry remoteName behavior maxRetries retryDelayMs timeoutMs).delays =
          (List.range maxRetries).map (fun i => retryDelayMs * 2 ^ i) ∧
        ∃ last,
          (loadRemoteWithRetry remoteName behavior maxRetries retryDelayMs timeoutMs).result =
            .error ("Failed to load remote \"" ++ remoteName ++ "\" after " ++
              toString (maxRetries + 1) ++ " attempts: " ++ last)) ∧
    (∀ j m, j ≤ maxRetries → raceTimeout timeoutMs (behavior j) = .ok m →
      (∀ i, i < j → ∃ e, raceTimeout timeoutMs (behavior i) = .error e) →
      loadRemoteWithRetry remoteName behavior maxRetries retryDelayMs timeoutMs =
        ⟨j + 1, (List.range j).map (fun i => retryDelayMs * 2 ^ i), .ok m⟩) ∧
    (∀ (t : Nat) (m : M), timeoutMs ≤ t →
      raceTimeout timeoutMs (AttemptBehavior.resolves t m) = .error "Load timeout") ∧
    loadRemoteWithRetry "r" (fun _ => (.rejects 0 "boom" : AttemptBehavior Nat)) 2 1000 10000 =
      ⟨3, [1000, 2000], .error "Failed to load remote \"r\" after 3 attempts: boom"⟩ := by
  refine ⟨?_, ?_, ?_, rfl⟩
  · intro h
    refine ⟨retryLoop_allfail_attempts _ remoteName maxRetries retryDelayMs h _ 0 "", ?_, ?_⟩
    · have := retryLoop_allfail_delays _ remoteName maxRetries retryDelayMs h
        (maxRetries + 1) 0 "" (by omega)
      simpa [loadRemoteWithRetry] using this
    · obtain ⟨last, hlast⟩ := retryLoop_allfail_result _ remoteName maxRetries retryDelayMs h
        (maxRetries + 1) 0 ""
      exact ⟨last, hlast⟩
  · intro j m hj hok herrs
    have := retryLoop_success (fun i => raceTimeout timeoutMs (behavior i)) remoteName
      maxRetries retryDelayMs j (maxRetries + 1) 0 "" m (by omega) (by omega)
      (by simpa using hok) (by simpa using herrs)
    simpa [loadRemoteWithRetry] using this
  · intro t m ht
    simp [raceTimeout, Nat.not_lt.mpr ht]

/-- Witness for C1: an always-failing fetch with `maxRetries = 2` makes
exactly 3 attempts, backs off 1000 then 2000 ms, and reports
"after 3 attempts". -/
theorem loadRemoteWithRetry_spec_witness :
    (loadRemoteWithRetry "r" (fun _ => (.rejects 0 "boom" : AttemptBehavior Nat))
        2 1000 10000).attempts = 3 ∧
      (loadRemoteWithRetry "r" (fun _ => (.rejects 0 "boom" : AttemptBehavior Nat))
        2 1000 10000).delays = [1000, 2000] := by
  have h := (loadRemoteWithRetry_spec "r"
    (fun _ => (.rejects 0 "boom" : AttemptBehavior Nat)) 2 1000 10000).1
    (fun i => ⟨"boom", rfl⟩)
  exact ⟨h.1, by rw [h.2.1]; rfl⟩

/-! ## Manifest resolution (`resolveRemoteUrl` / `loadRemote`, loadRemotes.ts)

The manifest is `{ remotes: { <name>: { <variantTag>: <url> } } }`; a
`VisibilityContext` carries a `rollout` tag. `ctx?.rollout ?? 'current'`
reads `"current"` when the context or its rollout tag is nullish. The
selected variant may be absent (JS `undefined`) or an empty string; both
are falsy, so `loadRemote`'s `if (!url)` check rejects them. -/

/-- The remotes manifest: remote name → (variant tag → address). -/
structure RemoteManifest where
  remotes : List (String × List (String × String))

/-- The slice of `VisibilityContext` that `resolveRemoteUrl` consults. The
rollout tag is optional here because the lookup guards it with
`ctx?.rollout ?? 'current'`. -/
structure RolloutContext where
  rollout : Option String

/-- `ctx?.rollout ?? 'current'`. -/
def variantTagOf (ctx : Option RolloutContext) : String :=
  match ctx with
  | none => "current"
  | some c => match c.rollout with
    | none => "current"
    | some r => r

/-- Embedding of `resolveRemoteUrl` from loadRemotes.ts: throws
`Unknown remote: <name>` when the manifest has no entry for the name,
otherwise returns `remote[ctx?.rollout ?? 'current']`, which may be
absent (`none`). -/
def resolveRemoteUrl (remoteName : String) (manifest : RemoteManifest)
    (ctx : Option RolloutContext) : Except String (Option String) :=
  match manifest.remotes.lookup remoteName with
  | none => .error ("Unknown remote: " ++ remoteName)
  | some remote => .ok (remote.lookup (variantTagOf ctx))

/-- JS falsiness of the resolved address: `undefined` or the empty string. -/
def urlFalsy (url : Option String) : Bool :=
  match url with
  | none => true
  | some u => u == ""

/-- Embedding of `loadRemote` from loadRemotes.ts: resolve the address,
reject falsy addresses with `No URL found for remote "<name>"`, perform the
dynamic import (modelled by `importFn`), and validate the loaded module with
`isRemoteModule`. -/
def loadRemote (remoteName : String) (manifest : RemoteManifest)
    (ctx : Option RolloutContext) (importFn : String → Except String JSValue) :
    Except String JSValue :=
  match resolveRemoteUrl remoteName manifest ctx with
  | .error e => .error e
  | .ok url =>
    if urlFalsy url then .error ("No URL found for remote \"" ++ remoteName ++ "\"")
    else
      match url with
      | none => .error ("No URL found for remote \"" ++ remoteName ++ "\"")
      | some u =>
        match importFn u with
        | .error e => .error e
        | .ok m =>
          if isRemoteModule m then .ok m
          else .error ("Remote \"" ++ remoteName ++ "\" does not export a valid RemoteModule")

example :
    loadRemote "status" ⟨[("status", [("current", "http://h/status.mjs")])]⟩ none
      (fun _ => .ok (.obj [("mount", .fn 0)])) = .ok (.obj [("mount", .fn 0)]) := rfl

example :
    loadRemote "nope" ⟨[("status", [("current", "u")])]⟩ none (fun _ => .ok .null) =
      .error "Unknown remote: nope" := rfl

example :
    loadRemote "status" ⟨[("status", [("current", "u")])]⟩ (some ⟨some "next"⟩)
      (fun _ => .ok .null) = .error "No URL found for remote \"status\"" := rfl

/-- C7: address resolution looks up `manifest[name][variantTag ?? "current"]`;
a name absent from the manifest fails with an "Unknown remote" error; an
absent context or rollout tag selects the `"current"` variant; and a
selected variant with no usable address makes the load fail explicitly with
a "No URL found" error instead of applying any other default. -/
theorem resolveRemoteUrl_spec (remoteName : String) (manifest : RemoteManifest)
    (ctx : Option RolloutContext) (importFn : String → Except String JSValue) :
    (manifest.remotes.lookup remoteName = none →
      resolveRemoteUrl remoteName manifest ctx = .error ("Unknown remote: " ++ remoteName) ∧
      loadRemote remoteName manifest ctx importFn =
        .error ("Unknown remote: " ++ remoteName)) ∧
    ((ctx = none ∨ ctx = some ⟨none⟩) → ∀ remote,
      manifest.remotes.lookup remoteName = some remote →
      resolveRemoteUrl remoteName manifest ctx = .ok (remote.lookup "current")) ∧
    (∀ remote, manifest.remotes.lookup remoteName = some remote →
      remote.lookup (variantTagOf ctx) = none →
      loadRemote remoteName manifest ctx importFn =
        .error ("No URL found for remote \"" ++ remoteName ++ "\"")) := by
  refine ⟨?_, ?_, ?_⟩
  · intro h
    constructor
    · simp [resolveRemoteUrl, h]
    · simp [loadRemote, resolveRemoteUrl, h]
  · rintro (rfl | rfl) remote h
    · simp [resolveRemoteUrl, h, variantTagOf]
    · simp [resolveRemoteUrl, h, variantTagOf]
  · intro remote h habsent
    simp [loadRemote, resolveRemoteUrl, h, habsent, urlFalsy]

/-- Witness for C7: on a one-remote manifest, resolving an unknown name,
resolving with no context, and resolving a missing "next" variant behave as
stated. -/
theorem resolveRemoteUrl_spec_witness :
    loadRemote "nope" ⟨[("status", [("current", "u")])]⟩ none (fun _ => .ok .null) =
        .error "Unknown remote: nope" ∧
      resolveRemoteUrl "status" ⟨[("status", [("current", "u")])]⟩ none =
        .ok (some "u") ∧
      loadRemote "status" ⟨[("status", [("current", "u")])]⟩ (some ⟨some "next"⟩)
        (fun _ => .ok .null) = .error "No URL found for remote \"status\"" := by
  refine ⟨?_, ?_, ?_⟩
  · exact ((resolveRemoteUrl_spec "nope" ⟨[("status", [("current", "u")])]⟩ none
      (fun _ => .ok .null)).1 rfl).2
  · have h := (resolveRemoteUrl_spec "status" ⟨[("status", [("current", "u")])]⟩ none
      (fun _ => .ok .null)).2.1 (Or.inl rfl) [("current", "u")] rfl
    rw [h]; rfl
  · exact (resolveRemoteUrl_spec "status" ⟨[("status", [("current", "u")])]⟩
      (some ⟨some "next"⟩) (fun _ => .ok .null)).2.2 [("current", "u")] rfl rfl

/-! ## Stylesheet utilities (`deriveCssUrl` / `loadCss`, packages/ui)

`deriveCssUrl` parses the address with `new URL`; on success it rewrites
only the pathname and reassembles the href, so query and fragment are
preserved verbatim; if parsing throws (relative addresses) it falls back to
the same substitution on the whole string. The default-mode substitution is
the regex `\.m?js$` → `.css`; hash-stripping mode uses
`(-[a-z0-9]+)?\.m?js$`, case-insensitive, which additionally removes one
trailing `-<alphanumeric-token>` segment immediately before the extension.
The URL parser here is a minimal model of WHATWG `new URL`: it accepts
`<scheme>://<host><path>?<query>#<fragment>` and throws (returns `none`)
on anything without a `://`, which is what the repository's relative
fallback relies on. -/

/-- The character class `[a-z0-9]` under the regex's `i` flag. -/
def isAlnumAscii (c : Char) : Bool := c.isAlpha || c.isDigit

/-- `pre` is a prefix of the second list. -/
def startsWithChars : List Char → List Char → Bool
  | [], _ => true
  | _ :: _, [] => false
  | p :: ps, c :: cs => p == c && startsWithChars ps cs

/-- `suffix` is a suffix of the second list. -/
def endsWithChars (suffix cs : List Char) : Bool :=
  startsWithChars suffix.reverse cs.reverse

/-- Case-sensitive string suffix test (`$`-anchored regex match). -/
def strEndsWith (s suffix : String) : Bool := endsWithChars suffix.data s.data

/-- Case-insensitive suffix test (the regex `i` flag); `suffix` is given in
lowercase. -/
def strEndsWithCI (s suffix : String) : Bool :=
  endsWithChars suffix.data (s.data.map Char.toLower)

/-- Effect of the optional regex group `(-[a-z0-9]+)?` anchored right before
the extension: remove a trailing `-<token>` (token = one or more
alphanumerics) if present, otherwise leave the name unchanged. -/
def stripVariantSuffix (base : String) : String :=
  let rev := base.data.reverse
  let tok := rev.takeWhile isAlnumAscii
  if tok.isEmpty then base
  else
    match rev.drop tok.length with
    | '-' :: rest => String.mk rest.reverse
    | _ => base

/-- `pathname.replace(/\.m?js$/, '.css')`. -/
def replaceJsExt (s : String) : String :=
  if strEndsWith s ".mjs" then s.dropRight 4 ++ ".css"
  else if strEndsWith s ".js" then s.dropRight 3 ++ ".css"
  else s

/-- `pathname.replace(/(-[a-z0-9]+)?\.m?js$/i, '.css')`. -/
def replaceJsExtStripHash (s : String) : String :=
  if strEndsWithCI s ".mjs" then stripVariantSuffix (s.dropRight 4) ++ ".css"
  else if strEndsWithCI s ".js" then stripVariantSuffix (s.dropRight 3) ++ ".css"
  else s

/-- Components of a parsed absolute URL. -/
structure URLParts where
  scheme : String
  host : String
  pathname : String
  search : String
  fragment : String

/-- Splits `<scheme>://<rest>` at the first occurrence of `://`. -/
def splitScheme : List Char → Option (List Char × List Char)
  | [] => none
  | ':' :: '/' :: '/' :: rest => some ([], rest)
  | c :: cs =>
    match splitScheme cs with
    | some (pre, post) => some (c :: pre, post)
    | none => none

/-- Minimal model of `new URL(jsUrl)`: absolute URLs parse into components,
anything without `://` throws (`none`). -/
def parseURL (s : String) : Option URLParts :=
  match splitScheme s.data with
  | none => none
  | some (schemeCs, rest) =>
    if schemeCs.isEmpty then none
    else
      let host := rest.takeWhile (fun c => !(c == '/' || c == '?' || c == '#'))
      let afterHost := rest.drop host.length
      let path := afterHost.takeWhile (fun c => !(c == '?' || c == '#'))
      let afterPath := afterHost.drop path.length
      let search := afterPath.takeWhile (fun c => !(c == '#'))
      let frag := afterPath.drop search.length
      some ⟨String.mk schemeCs, String.mk host,
        if path.isEmpty then "/" else String.mk path,
        String.mk search, String.mk frag⟩

/-- `url.href` after the pathname has been reassigned. -/
def urlHref (u : URLParts) : String :=
  u.scheme ++ "://" ++ u.host ++ u.pathname ++ u.search ++ u.fragment

/-- Embedding of `deriveCssUrl` from packages/ui (source listed in
packages/ui/README.md): parse the URL and rewrite its pathname with the
mode's substitution, preserving query/fragment; on parse failure apply the
same substitution to the whole string. -/
def deriveCssUrl (jsUrl : String) (removeHash : Bool) : String :=
  match parseURL jsUrl with
  | some u =>
    let pathname := if removeHash then replaceJsExtStripHash u.pathname else replaceJsExt u.pathname
    urlHref ⟨u.scheme, u.host, pathname, u.search, u.fragment⟩
  | none =>
    if removeHash then replaceJsExtStripHash jsUrl else replaceJsExt jsUrl

example : deriveCssUrl "http://h/visibility-abc123.mjs" false =
  "http://h/visibility-abc123.css" := rfl

/-- C4: `deriveCssUrl` realizes the stylesheet-address derivation rule in
both modes: default mode replaces a recognized `.mjs`/`.js` extension with
`.css` preserving query/fragment verbatim and handles relative addresses
without throwing; hash-stripping mode additionally removes a trailing
`-<alphanumeric-token>` before the extension and leaves already-bare names
unaffected. The listed equalities are the spec's exact expected outputs,
and the final conjunct shows query and fragment of any parsed address are
carried over verbatim while only the pathname is rewritten. -/
theorem deriveCssUrl_spec :
    deriveCssUrl "http://h/mount.mjs" false = "http://h/mount.css" ∧
    deriveCssUrl "http://h/bundle.js" false = "http://h/bundle.css" ∧
    deriveCssUrl "http://h/mount.mjs?v=123" false = "http://h/mount.css?v=123" ∧
    deriveCssUrl "./mount.mjs" false = "./mount.css" ∧
    deriveCssUrl "http://h/visibility-abc123.mjs" true = "http://h/visibility.css" ∧
    deriveCssUrl "http://h/visibility.mjs" true = "http://h/visibility.css" ∧
    (∀ (jsUrl : String) (mode : Bool) (u : URLParts), parseURL jsUrl = some u →
      deriveCssUrl jsUrl mode =
        u.scheme ++ "://" ++ u.host ++
          (if mode then replaceJsExtStripHash u.pathname else replaceJsExt u.pathname) ++
          u.search ++ u.fragment) := by
  refine ⟨rfl, rfl, rfl, rfl, rfl, rfl, ?_⟩
  intro jsUrl mode u h
  simp [deriveCssUrl, h, urlHref]

/-- Witness for C4: the query/fragment-preservation conjunct applied to the
concrete address `http://h/mount.mjs?v=1#f`. -/
theorem deriveCssUrl_spec_witness :
    deriveCssUrl "http://h/mount.mjs?v=1#f" false =
      "http" ++ "://" ++ "h" ++ replaceJsExt "/mount.mjs" ++ "?v=1" ++ "#f" := by
  have h := deriveCssUrl_spec.2.2.2.2.2.2 "http://h/mount.mjs?v=1#f" false
    ⟨"http", "h", "/mount.mjs", "?v=1", "#f"⟩ rfl
  simpa using h

/-! ## `loadCss` (packages/ui)

The document is modelled as the list of stylesheet-link hrefs in its head,
in insertion order. `loadCss` first queries for an existing link with the
same href and resolves immediately when found; otherwise it appends a new
link whose load either succeeds (`onload`) or fails (`onerror`), the
parameter `ok` standing for the browser-level load signal. Note the link
element stays in the document even when its load fails, exactly as in the
source. -/

/-- The stylesheet-relevant document state: hrefs of the link elements in
`document.head`. -/
structure CssDoc where
  links : List String

/-- Embedding of `loadCss` from packages/ui (source listed in
packages/ui/README.md). -/
def loadCss (href : String) (ok : Bool) (doc : CssDoc) : CssDoc × Except String Unit :=
  if doc.links.contains href then (doc, .ok ())
  else
    (⟨doc.links ++ [href]⟩,
     if ok then .ok () else .error ("Failed to load CSS: " ++ href))

/-- Repeated `loadCss` calls for one address, with the given browser load
outcomes; returns the final document. -/
def loadCssSeq (href : String) (oks : List Bool) (doc : CssDoc) : CssDoc :=
  match oks with
  | [] => doc
  | ok :: rest => loadCssSeq href rest (loadCss href ok doc).1

lemma loadCssSeq_of_mem (href : String) (oks : List Bool) (doc : CssDoc)
    (h : href ∈ doc.links) : loadCssSeq href oks doc = doc := by
  induction oks with
  | nil => rfl
  | cons ok rest ih => simp [loadCssSeq, loadCss, h, ih]

/-- C5: stylesheet loading is idempotent per address: any number of
`loadCss` calls leaves at most one link with that href (exactly one when at
least one call is made to a document without it); a call that finds an
existing link resolves `ok` without touching the document; and a
browser-level failure rejects with an error naming the address. -/
theorem loadCss_idempotent (href : String) (doc : CssDoc) :
    (∀ oks : List Bool, doc.links.count href ≤ 1 →
      (loadCssSeq href oks doc).links.count href ≤ 1) ∧
    (∀ oks : List Bool, oks ≠ [] → doc.links.count href = 0 →
      (loadCssSeq href oks doc).links.count href = 1) ∧
    (∀ ok : Bool, href ∈ doc.links → loadCss href ok doc = (doc, .ok ())) ∧
    (href ∉ doc.links →
      (loadCss href false doc).2 = .error ("Failed to load CSS: " ++ href)) := by
  have key : ∀ oks : List Bool, oks ≠ [] → doc.links.count href = 0 →
      (loadCssSeq href oks doc).links.count href = 1 := by
    intro oks hne h0
    match oks with
    | ok :: rest =>
      have hnc : href ∉ doc.links := by
        intro hmem
        have := List.count_pos_iff.mpr hmem
        omega
      have hstep : (loadCss href ok doc).1 = ⟨doc.links ++ [href]⟩ := by
        simp [loadCss, hnc]
      have hcont : href ∈ (⟨doc.links ++ [href]⟩ : CssDoc).links := by simp
      simp only [loadCssSeq, hstep, loadCssSeq_of_mem href rest _ hcont]
      simp [List.count_append, h0]
  refine ⟨?_, key, ?_, ?_⟩
  · intro oks hle
    cases oks with
    | nil => simpa [loadCssSeq] using hle
    | cons ok rest =>
      by_cases hc : href ∈ doc.links
      · rw [show loadCssSeq href (ok :: rest) doc =
          loadCssSeq href rest (loadCss href ok doc).1 from rfl]
        have : (loadCss href ok doc).1 = doc := by simp [loadCss, hc]
        rw [this, loadCssSeq_of_mem href rest doc hc]
        exact hle
      · have h0 : doc.links.count href = 0 := List.count_eq_zero.mpr hc
        have := key (ok :: rest) (by simp) h0
        omega
  · intro ok hcont
    simp [loadCss, hcont]
  · intro hnc
    simp [loadCss, hnc]

/-- Witness for C5: loading `http://h/app.css` twice into an empty document
leaves exactly one link for it. -/
theorem loadCss_idempotent_witness :
    (loadCssSeq "http://h/app.css" [true, true] ⟨[]⟩).links.count "http://h/app.css" = 1 :=
  (loadCss_idempotent "http://h/app.css" ⟨[]⟩).2.1 [true, true] (by simp) rfl

/-! ## Context cascade (visibility.tsx)

The host `mount` derives the visibility context from the portal context it
receives:

```ts
const visibilityContext: VisibilityContext = {
  ...context,
  entitlements: ['external:overview', 'external:details'],
  rollout: 'current',
};
```

A context object is modelled by its field-lookup function
`String → Option JSValue` (the `PortalContext` interface carries an index
signature `[key: string]: unknown`, so a base context may bind arbitrary
keys). The spread-with-overrides literal reads the two added keys from the
derived layer and every other key from the base. -/

/-- The entitlement list the host mount adds to the derived context. -/
def entitlementsValue : JSValue :=
  .arr [.str "external:overview", .str "external:details"]

/-- Field-lookup semantics of
`{...context, entitlements: [...], rollout: 'current'}`. -/
def visibilityContextOf (context : String → Option JSValue) : String → Option JSValue :=
  fun k =>
    if k = "entitlements" then some entitlementsValue
    else if k = "rollout" then some (JSValue.str "current")
    else context k

/-- C9 counterexample: the derived context is not a structural superset of
every base `PortalContext`. The index signature admits a base context that
already binds `rollout` (say to `"next"`); the spread overrides it with
`"current"`, so that field does not survive unchanged. -/
theorem visibilityContext_not_field_preserving :
    ¬ (∀ (context : String → Option JSValue) (k : String) (v : JSValue),
        context k = some v → visibilityContextOf context k = some v) := by
  intro h
  have hbase : (fun k => if k = "rollout" then some (JSValue.str "next") else none) "rollout" =
      some (JSValue.str "next") := rfl
  have hc := h (fun k => if k = "rollout" then some (JSValue.str "next") else none)
    "rollout" (.str "next") hbase
  have heval : visibilityContextOf
      (fun k => if k = "rollout" then some (JSValue.str "next") else none) "rollout" =
      some (JSValue.str "current") := rfl
  rw [heval] at hc
  injection hc with hc'
  injection hc' with hc''
  exact absurd hc'' (by decide)

/-- C9 (amended): the derived context preserves every base field except the
derived layer's own keys: any field named neither `entitlements` nor
`rollout` is carried over unchanged, and the two added keys are bound to
the derived layer's values (overriding a like-named base field if one
exists). -/
theorem visibilityContextOf_spec (context : String → Option JSValue) :
    (∀ (k : String) (v : JSValue), k ≠ "entitlements" → k ≠ "rollout" →
      context k = some v → visibilityContextOf context k = some v) ∧
    visibilityContextOf context "entitlements" = some entitlementsValue ∧
    visibilityContextOf context "rollout" = some (JSValue.str "current") := by
  refine ⟨?_, rfl, rfl⟩
  intro k v h1 h2 hk
  simp [visibilityContextOf, h1, h2, hk]

/-- Witness for C9 (amended): a base field named `env` survives the
derivation unchanged. -/
theorem visibilityContextOf_spec_witness :
    visibilityContextOf (fun k => if k = "env" then some (JSValue.str "production") else none)
        "env" = some (JSValue.str "production") :=
  (visibilityContextOf_spec
    (fun k => if k = "env" then some (JSValue.str "production") else none)).1
    "env" (.str "production") (by decide) (by decide) rfl

/-! ## Host mount registry (visibility.tsx, WeakMap revision)

The WeakMap revision of the visibility `mount` keeps
`rootRegistry = new WeakMap<HTMLElement, Root>()`. On `mount(el, context)`
it derives the visibility context, and then either re-renders the existing
root recorded for `el` (in-place update) or creates one new root, records
it, and renders. Surfaces and roots are identified by numbers; every
`root.render` call is logged together with the context it rendered. The
fire-and-forget `loadCss` call touches neither the registry nor the render
log and is covered by the stylesheet section above. -/

/-- State of the host module: the element→root registry, the id for the
next `createRoot`, and the log of `root.render(..)` calls. -/
structure HostState where
  rootRegistry : List (Nat × Nat)
  nextRootId : Nat
  renderLog : List (Nat × (String → Option JSValue))

/-- Embedding of the WeakMap-based `mount` of visibility.tsx; returns the
new state and the root handle the call returns. -/
def visibilityMount (el : Nat) (context : String → Option JSValue) (st : HostState) :
    HostState × Nat :=
  let vctx := visibilityContextOf context
  match st.rootRegistry.lookup el with
  | some root =>
    (⟨st.rootRegistry, st.nextRootId, st.renderLog ++ [(root, vctx)]⟩, root)
  | none =>
    (⟨st.rootRegistry ++ [(el, st.nextRootId)], st.nextRootId + 1,
      st.renderLog ++ [(st.nextRootId, vctx)]⟩, st.nextRootId)

/-- Number of roots recorded for a given element. -/
def rootsFor (st : HostState) (el : Nat) : Nat :=
  (st.rootRegistry.filter (fun p => el == p.1)).length

lemma lookup_append_pair {α β : Type} [BEq α] (k : α) (l1 l2 : List (α × β)) :
    (l1 ++ l2).lookup k =
      match l1.lookup k with
      | some v => some v
      | none => l2.lookup k := by
  induction l1 with
  | nil => rfl
  | cons p t ih =>
    cases p with
    | mk a b =>
      cases h : (k == a) with
      | true => simp [List.lookup, h]
      | false => simp [List.lookup, h, ih]

lemma lookup_none_filter_nil (el : Nat) (l : List (Nat × Nat)) (h : l.lookup el = none) :
    l.filter (fun p => el == p.1) = [] := by
  induction l with
  | nil => rfl
  | cons p t ih =>
    cases p with
    | mk a b =>
      cases ha : (el == a) with
      | true => simp [List.lookup, ha] at h
      | false =>
        simp only [List.lookup, ha] at h
        simp [List.filter, ha, ih h]

/-- C3: the host mount records at most one root per surface element. A
mount on an element with a recorded root re-renders that root in place with
the newly derived context — same registry, no new root id consumed; a mount
on a fresh element records exactly one new root; and two sequential mounts
of the same fresh element with different contexts leave exactly one
recorded root, rendered twice with the respective contexts. -/
theorem visibilityMount_single_root (el : Nat) (c1 c2 : String → Option JSValue)
    (st : HostState) :
    (∀ el', rootsFor st el' ≤ 1 → rootsFor (visibilityMount el c1 st).1 el' ≤ 1) ∧
    (∀ root, st.rootRegistry.lookup el = some root →
      (visibilityMount el c1 st).1.rootRegistry = st.rootRegistry ∧
      (visibilityMount el c1 st).1.nextRootId = st.nextRootId ∧
      (visibilityMount el c1 st).2 = root ∧
      (visibilityMount el c1 st).1.renderLog =
        st.renderLog ++ [(root, visibilityContextOf c1)]) ∧
    (st.rootRegistry.lookup el = none →
      (visibilityMount el c1 st).1.rootRegistry = st.rootRegistry ++ [(el, st.nextRootId)] ∧
      (visibilityMount el c1 st).2 = st.nextRootId ∧
      (visibilityMount el c1 st).1.renderLog =
        st.renderLog ++ [(st.nextRootId, visibilityContextOf c1)]) ∧
    (st.rootRegistry.lookup el = none →
      rootsFor (visibilityMount el c2 (visibilityMount el c1 st).1).1 el = 1 ∧
      (visibilityMount el c2 (visibilityMount el c1 st).1).1.nextRootId =
        st.nextRootId + 1 ∧
      (visibilityMount el c2 (visibilityMount el c1 st).1).1.renderLog =
        st.renderLog ++ [(st.nextRootId, visibilityContextOf c1),
          (st.nextRootId, visibilityContextOf c2)]) := by
  refine ⟨?_, ?_, ?_, ?_⟩
  · intro el' h
    cases hl : st.rootRegistry.lookup el with
    | some root => simpa [visibilityMount, hl, rootsFor] using h
    | none =>
      unfold rootsFor at h ⊢
      simp only [visibilityMount, hl, List.filter_append]
      cases he : (el' == el) with
      | false => simpa [List.filter, he] using h
      | true =>
        have heq : el' = el := by simpa using he
        subst heq
        rw [lookup_none_filter_nil el' st.rootRegistry hl]
        simp [List.filter, he]
  · intro root hl
    refine ⟨?_, ?_, ?_, ?_⟩ <;> simp [visibilityMount, hl]
  · intro hl
    refine ⟨?_, ?_, ?_⟩ <;> simp [visibilityMount, hl]
  · intro hl
    have hl2 : (st.rootRegistry ++ [(el, st.nextRootId)]).lookup el = some st.nextRootId := by
      rw [lookup_append_pair el st.rootRegistry [(el, st.nextRootId)], hl]
      simp [List.lookup]
    refine ⟨?_, ?_, ?_⟩
    · unfold rootsFor
      simp only [visibilityMount, hl, hl2, List.filter_append]
      rw [lookup_none_filter_nil el st.rootRegistry hl]
      simp [List.filter]
    · simp [visibilityMount, hl, hl2]
    · simp [visibilityMount, hl, hl2]

/-- Witness for C3: on a fresh state, mounting element 7 twice with
different contexts records exactly one root and consumes exactly one root
id. -/
theorem visibilityMount_single_root_witness :
    rootsFor (visibilityMount 7 (fun _ => none)
        (visibilityMount 7 (fun _ => some (JSValue.str "a")) ⟨[], 0, []⟩).1).1 7 = 1 ∧
      (visibilityMount 7 (fun _ => none)
        (visibilityMount 7 (fun _ => some (JSValue.str "a")) ⟨[], 0, []⟩).1).1.nextRootId = 1 := by
  have h := (visibilityMount_single_root 7 (fun _ => some (JSValue.str "a")) (fun _ => none)
    ⟨[], 0, []⟩).2.2.2 rfl
  exact ⟨h.1, h.2.1⟩

/-! ## Status remote entry point (status.tsx)

The status remote keeps a single module-level `let root: Root | null`; its
`mount(el, context)` is a no-op whenever `root` is non-null (regardless of
the element passed), and its `unmount()` takes no element, unmounts the
single root, and resets it to `null`. Render and unmount calls are logged;
roots are numbered by a counter modelling successive `createRoot` calls. -/

/-- Module state of status.tsx: the single root, the id of the next root to
create, the log of renders `(rootId, element)` and of root unmounts. -/
structure StatusState where
  root : Option Nat
  nextRootId : Nat
  renderLog : List (Nat × Nat)
  unmountLog : List Nat

/-- Embedding of `mount` from status.tsx: `if (root) return;` then create,
record and render a new root into `el`. -/
def statusMount (el : Nat) (st : StatusState) : StatusState :=
  match st.root with
  | some _ => st
  | none =>
    ⟨some st.nextRootId, st.nextRootId + 1,
      st.renderLog ++ [(st.nextRootId, el)], st.unmountLog⟩

/-- Embedding of `unmount` from status.tsx: `root?.unmount(); root = null;`. -/
def statusUnmount (st : StatusState) : StatusState :=
  ⟨none, st.nextRootId, st.renderLog,
    st.unmountLog ++ (match st.root with | some r => [r] | none => [])⟩

/-- C10: the status remote's mount is globally idempotent through the single
module-level root: after a successful mount, every later mount call — even
with a different target element — is a no-op that renders nothing, until
`unmount` (which takes no element) unmounts that root and resets it to
null, after which a subsequent mount succeeds again. -/
theorem statusMount_global_idempotent (st : StatusState) (el el' : Nat) :
    (∀ r, st.root = some r → statusMount el st = st) ∧
    (statusUnmount st).root = none ∧
    (∀ r, st.root = some r → (statusUnmount st).unmountLog = st.unmountLog ++ [r]) ∧
    (st.root = none → statusMount el st =
      ⟨some st.nextRootId, st.nextRootId + 1,
        st.renderLog ++ [(st.nextRootId, el)], st.unmountLog⟩) ∧
    (st.root = none →
      (statusMount el' (statusUnmount (statusMount el st))).root =
          some (st.nextRootId + 1) ∧
        (statusMount el' (statusUnmount (statusMount el st))).renderLog =
          st.renderLog ++ [(st.nextRootId, el), (st.nextRootId + 1, el')]) := by
  refine ⟨?_, rfl, ?_, ?_, ?_⟩
  · intro r hr
    simp [statusMount, hr]
  · intro r hr
    simp [statusUnmount, hr]
  · intro h0
    simp [statusMount, h0]
  · intro h0
    refine ⟨?_, ?_⟩ <;> simp [statusMount, statusUnmount, h0]

/-- Witness for C10: from a fresh module state, mount into element 1, a
second mount into element 2 is a no-op, and after unmount a mount into
element 2 succeeds. -/
theorem statusMount_global_idempotent_witness :
    statusMount 2 (statusMount 1 ⟨none, 0, [], []⟩) = statusMount 1 ⟨none, 0, [], []⟩ ∧
      (statusMount 2 (statusUnmount (statusMount 1 ⟨none, 0, [], []⟩))).renderLog =
        [(0, 1), (1, 2)] := by
  constructor
  · exact (statusMount_global_idempotent (statusMount 1 ⟨none, 0, [], []⟩) 2 2).1 0 rfl
  · exact ((statusMount_global_idempotent ⟨none, 0, [], []⟩ 1 2).2.2.2.2 rfl).2

/-! ## `RemoteSlot` effect run (RemoteSlot.tsx)

One run of the effect body of `RemoteSlot` awaits the manifest
(suspension point 1), checks `cancelled`, awaits `loadRemoteWithRetry`
(suspension point 2), checks `cancelled`, and only then mounts the module,
records the cleanup callback and sets the slot state; the catch block
checks `cancelled` before setting the error state. Thrown errors are
modelled by their message strings; `c n` is the value of the `cancelled`
flag as observed by the check that follows suspension point `n`. Every
effect in the returned trace is tagged with the suspension point
immediately preceding it. The catch block tags every failure with
`stage: 'load'`. -/

/-- A side effect the slot run can perform after a suspension point. -/
inductive SlotEffect where
  | mountRemote : SlotEffect
  | recordCleanup : SlotEffect
  | setMounted : SlotEffect
  | setError (stage message : String) : SlotEffect

/-- Embedding of the async effect body of `RemoteSlot`, as the trace of
side effects it performs, each tagged with the suspension point after which
it runs. `manifestRes` is the settled result of `loadRemoteManifest()`,
`loadRes` that of `loadRemoteWithRetry` given the manifest. -/
def slotRun (manifestRes : Except String RemoteManifest)
    (loadRes : RemoteManifest → Except String JSValue) (c : Nat → Bool) :
    List (Nat × SlotEffect) :=
  match manifestRes with
  | .error e => if c 1 then [] else [(1, .setError "load" e)]
  | .ok man =>
    if c 1 then []
    else
      match loadRes man with
      | .error e => if c 2 then [] else [(2, .setError "load" e)]
      | .ok _ => if c 2 then [] else [(2, .mountRemote), (2, .recordCleanup), (2, .setMounted)]

example :
    slotRun (.ok ⟨[]⟩) (fun _ => .ok (.obj [("mount", .fn 0)])) (fun _ => false) =
      [(2, .mountRemote), (2, .recordCleanup), (2, .setMounted)] := rfl

example : slotRun (.ok ⟨[]⟩) (fun _ => .ok .null) (fun n => n ≥ 2) = [] := rfl

/-- C8: a superseded run performs no further side effects: every effect in
the trace is guarded by the cancellation check at its preceding suspension
point, and if the cancelled flag (monotone over suspension points) is set
by point `n`, no effect at or after `n` — no module mount, no recorded
cleanup, no state update — is performed. -/
theorem slotRun_cancellation (manifestRes : Except String RemoteManifest)
    (loadRes : RemoteManifest → Except String JSValue) (c : Nat → Bool) :
    (∀ p ∈ slotRun manifestRes loadRes c, c p.1 = false) ∧
    ((∀ i j, i ≤ j → c i = true → c j = true) →
      ∀ n, c n = true → ∀ p ∈ slotRun manifestRes loadRes c, p.1 < n) := by
  have hguard : ∀ p ∈ slotRun manifestRes loadRes c, c p.1 = false := by
    intro p hp
    unfold slotRun at hp
    cases manifestRes with
    | error e =>
      cases h1 : c 1 with
      | true => simp [h1] at hp
      | false =>
        simp [h1] at hp
        subst hp
        exact h1
    | ok man =>
      cases h1 : c 1 with
      | true => simp [h1] at hp
      | false =>
        simp [h1] at hp
        cases hload : loadRes man with
        | error e =>
          rw [hload] at hp
          cases h2 : c 2 with
          | true => simp [h2] at hp
          | false =>
            simp [h2] at hp
            subst hp
            exact h2
        | ok m =>
          rw [hload] at hp
          cases h2 : c 2 with
          | true => simp [h2] at hp
          | false =>
            simp [h2] at hp
            rcases hp with rfl | rfl | rfl <;> exact h2
  refine ⟨hguard, ?_⟩
  intro hmono n hn p hp
  by_contra hlt
  have hle : n ≤ p.1 := by omega
  have := hmono n p.1 hle hn
  rw [hguard p hp] at this
  cases this

/-- Witness for C8: a run cancelled during the load await (flag set by
suspension point 2) performs no effects at all. -/
theorem slotRun_cancellation_witness :
    ∀ p ∈ slotRun (.ok ⟨[]⟩) (fun _ => .ok (.obj [("mount", .fn 0)])) (fun n => n ≥ 2),
      p.1 < 2 := by
  intro p hp
  exact (slotRun_cancellation (.ok ⟨[]⟩) (fun _ => .ok (.obj [("mount", .fn 0)]))
    (fun n => n ≥ 2)).2 (fun i j hij hi => by simp at hi ⊢; omega) 2 (by simp) p hp

/-- C6 counterexample: a manifest-resolution failure is not tagged with a
manifest stage. A failing `loadRemoteManifest` reaches the single catch
block, which records stage `"load"` — and `"load" ≠ "manifest"`. -/
theorem remoteSlot_manifest_stage_counterexample :
    slotRun (.error "manifest fetch failed") (fun _ => .ok (.obj [("mount", .fn 0)]))
        (fun _ => false) =
      [(1, .setError "load" "manifest fetch failed")] ∧
    ("load" : String) ≠ "manifest" := ⟨rfl, by decide⟩

/-- C6 (amended): every failure of a `RemoteSlot` run — manifest resolution
included — transitions the slot to the error state with stage tag `"load"`;
the `'manifest'` tag declared in `RemoteError` is never produced. -/
theorem remoteSlot_error_stage (manifestRes : Except String RemoteManifest)
    (loadRes : RemoteManifest → Except String JSValue) (c : Nat → Bool)
    (e : String) (man : RemoteManifest) :
    (c 1 = false →
      slotRun (.error e) loadRes c = [(1, .setError "load" e)]) ∧
    (c 1 = false → c 2 = false →
      slotRun (.ok man) (fun _ => .error e) c = [(2, .setError "load" e)]) ∧
    (∀ (n : Nat) (msg : String),
      (n, SlotEffect.setError "manifest" msg) ∉ slotRun manifestRes loadRes c) := by
  refine ⟨?_, ?_, ?_⟩
  · intro h1
    simp [slotRun, h1]
  · intro h1 h2
    simp [slotRun, h1, h2]
  · intro n msg hp
    unfold slotRun at hp
    cases manifestRes with
    | error e' =>
      cases h1 : c 1 with
      | true => simp [h1] at hp
      | false => simp [h1] at hp
    | ok man' =>
      cases h1 : c 1 with
      | true => simp [h1] at hp
      | false =>
        simp [h1] at hp
        cases hload : loadRes man' with
        | error e' =>
          rw [hload] at hp
          cases h2 : c 2 with
          | true => simp [h2] at hp
          | false => simp [h2] at hp
        | ok m =>
          rw [hload] at hp
          cases h2 : c 2 with
          | true => simp [h2] at hp
          | false => simp [h2] at hp

/-- Witness for C6 (amended): with the cancelled flag never set, a failed
manifest fetch ends the run in the error state tagged `"load"`. -/
theorem remoteSlot_error_stage_witness :
    slotRun (.error "boom") (fun _ => .ok .null) (fun _ => false) =
      [(1, .setError "load" "boom")] :=
  (remoteSlot_error_stage (.error "boom") (fun _ => .ok .null) (fun _ => false)
    "boom" ⟨[]⟩).1 rfl

end Visibility
